import Mathlib

/-!
Shallow embedding of the analysis core of the mythril symbolic-execution
scanner, covering three source files:

* `mythril/analysis/modules/multiple_sends.py` — the `MultipleSendsAnnotation`
  state annotation and the `MultipleSendsModule` detection module;
* `mythril/laser/plugin/loader.py` — the `LaserPluginLoader` plugin registry;
* `mythril/analysis/issue_annotation.py` — the issue-propagation annotation.

Python heap aliasing matters for the annotation claims, so the lists held by
annotations live in an explicit store (`ListStore`) and an annotation holds a
reference (an index) into that store, mirroring Python object references.
The external solver bridge `get_transaction_sequence` is modelled as an
oracle indexed by the call count within one `_analyze_state` invocation:
the source calls it with the same `(state, state.mstate.constraints)`
arguments on every loop iteration, so the call index is the only thing that
can distinguish two calls (the external solver is stateful).
-/

namespace Mythril

/-- A concrete transaction sequence: the model returned by the solver
bridge.  Its internal structure is irrelevant to the claims; only identity
and (non-)emptiness matter, so it is abstracted as a list of tokens. -/
abbrev TxSeq := List Nat

/-- The solver bridge `get_transaction_sequence(state, constraints)`,
as seen from one invocation of `_analyze_state`: the `n`-th call of the
loop returns `solver n`, which is `none` when the solver raises
`UnsatError` and `some model` when it returns a transaction sequence. -/
abbrev Solver := Nat → Option TxSeq

/-- Modelled from the spec: the classification identifier for this detector
("classification identifier (from a fixed taxonomy)").  The module
`mythril.analysis.swc_data` is not under src/; the concrete value is
irrelevant to every claim. -/
def MULTIPLE_SENDS : String := "113"

/-- One disassembled instruction, as returned by
`state.get_current_instruction()`: the fields `opcode` and `address` are the
only ones the analysed code reads. -/
structure Instruction where
  opcode : String
  address : Nat
deriving DecidableEq

/-- The read-only environment of a state: `environment.active_account.
contract_name`, `environment.active_function_name` and
`environment.code.bytecode`, flattened. -/
structure Environment where
  contract_name : String
  active_function_name : String
  bytecode : List Nat
deriving DecidableEq

/-- The machine sub-state: the path constraints (opaque to this model, they
are only ever handed to the solver bridge) and the gas bounds read by
`Issue` construction. -/
structure MachineState where
  constraints : List Nat
  min_gas_used : Nat
  max_gas_used : Nat
deriving DecidableEq

/-- The store of Python list objects: index `r` is the current contents of
the list object with reference `r`. -/
abbrev ListStore := List (List Nat)

/-- Reading a list object from the store (a dangling reference reads as the
empty list; theorems that need it carry a validity hypothesis). -/
def readList : ListStore → Nat → List Nat
  | [], _ => []
  | v :: _, 0 => v
  | _ :: σ, n + 1 => readList σ n

/-- Replacing the contents of list object `r` in the store (in-place
mutation of a Python list). -/
def writeList : ListStore → Nat → List Nat → ListStore
  | [], _, _ => []
  | _ :: σ, 0, v => v :: σ
  | w :: σ, n + 1, v => w :: writeList σ n v

/-- `MultipleSendsAnnotation`: its single attribute `call_offsets` is a
Python list object, held here by reference into the `ListStore`. -/
structure MultipleSendsAnnotation where
  call_offsets : Nat
deriving DecidableEq

/-- One node of the symbolic execution tree, restricted to the fields the
analysed code reads: the current instruction, the environment, the machine
sub-state and the attached annotations (at most one instance of
`MultipleSendsAnnotation` per state, keyed by type identity, so an
`Option`). -/
structure GlobalState where
  instruction : Instruction
  environment : Environment
  mstate : MachineState
  annotations : Option MultipleSendsAnnotation
deriving DecidableEq

/-- `MultipleSendsAnnotation.__copy__`: builds a fresh annotation whose
`call_offsets` is `copy(self.call_offsets)` — a NEW list object (allocated
at the end of the store) holding the same contents as the original at the
moment of the copy. -/
def MultipleSendsAnnotation.copy (σ : ListStore) (a : MultipleSendsAnnotation) :
    ListStore × MultipleSendsAnnotation :=
  (σ ++ [readList σ a.call_offsets], ⟨σ.length⟩)

/-- `lst.append(x)` on the list object referenced by an annotation's
`call_offsets` attribute. -/
def append_call_offset (σ : ListStore) (a : MultipleSendsAnnotation) (x : Nat) : ListStore :=
  writeList σ a.call_offsets (readList σ a.call_offsets ++ [x])

/-- Modelled from the spec: `get_or_create_annotation` (from
`mythril.analysis.analysis_module_helpers`, not under src/) returns the
state's attached annotation of the requested kind, attaching a freshly
constructed one (here: with a new empty `call_offsets` list) when the state
has none — "a mapping from annotation-kind to annotation instance (at most
one instance of a given kind per state)". -/
def get_or_create_annotation (σ : ListStore) (state : GlobalState) :
    ListStore × GlobalState × MultipleSendsAnnotation :=
  match state.annotations with
  | some a => (σ, state, a)
  | none =>
      (σ ++ [[]], { state with annotations := some ⟨σ.length⟩ }, ⟨σ.length⟩)

/-- Modelled from the spec: the `Issue` record (`mythril.analysis.report`
is not under src/) — "immutable once constructed — contract identity,
function name, program-address of the vulnerable instruction, a
classification identifier, severity level, a two-part description, a
gas-cost range, and the concrete transaction sequence".  The fields are
exactly the keyword arguments of the `Issue(...)` call in
`multiple_sends.py`. -/
structure Issue where
  contract : String
  function_name : String
  address : Nat
  swc_id : String
  bytecode : List Nat
  title : String
  severity : String
  description_head : String
  description_tail : String
  gas_used : Nat × Nat
  transaction_sequence : TxSeq
deriving DecidableEq

/-- The `Issue(...)` construction performed by
`MultipleSendsModule._analyze_state` at call offset `offset` with the
solver model `seq`. -/
def mkIssue (state : GlobalState) (offset : Nat) (seq : TxSeq) : Issue :=
  { contract := state.environment.contract_name
    function_name := state.environment.active_function_name
    address := offset
    swc_id := MULTIPLE_SENDS
    bytecode := state.environment.bytecode
    title := "Multiple Calls in a Single Transaction"
    severity := "Low"
    description_head := "Multiple calls are executed in the same transaction."
    description_tail := "This call is executed after a previous call in the same transaction. Try to isolate each call, transfer or send into its own transaction."
    gas_used := (state.mstate.min_gas_used, state.mstate.max_gas_used)
    transaction_sequence := seq }

/-- The call-family opcodes tested by `_analyze_state`. -/
def CALL_OPCODES : List String := ["CALL", "DELEGATECALL", "STATICCALL", "CALLCODE"]

/-- The `for offset in call_offsets[1:]` loop of `_analyze_state`: `i` is
the number of solver calls already made.  `UnsatError` (`solver i = none`)
is caught and the loop continues with the next offset; on the first
successful solver call the loop returns the singleton issue list. -/
def scan_call_offsets (solver : Solver) (state : GlobalState) :
    Nat → List Nat → List Issue
  | _, [] => []
  | i, offset :: rest =>
      match solver i with
      | none => scan_call_offsets solver state (i + 1) rest
      | some seq => [mkIssue state offset seq]

/-- `MultipleSendsModule._analyze_state`: on a call-family opcode, appends
the current instruction's address to the annotation's `call_offsets` list
and reports nothing; otherwise (RETURN or STOP — the only other registered
pre-hooks) scans the offsets after the first and reports at most one
issue.  Returns the updated store, the (possibly annotated) state and the
issue list. -/
def _analyze_state (solver : Solver) (σ : ListStore) (state : GlobalState) :
    ListStore × GlobalState × List Issue :=
  let instr := state.instruction
  let res := get_or_create_annotation σ state
  let σ₁ := res.1
  let state₁ := res.2.1
  let a := res.2.2
  let call_offsets := readList σ₁ a.call_offsets
  if CALL_OPCODES.contains instr.opcode then
    (append_call_offset σ₁ a instr.address, state₁, [])
  else
    (σ₁, state₁, scan_call_offsets solver state₁ 0 (call_offsets.drop 1))

/-- Modelled from the spec: the mutable state a `DetectionModule` owns
(the base class is not under src/) — "an address-cache (set of
already-reported program addresses …) and an accumulating list of
findings", i.e. `self._cache` and `self._issues` as used by
`MultipleSendsModule._execute`. -/
structure ModuleState where
  cache : List Nat
  issues : List Issue
deriving DecidableEq

/-- `self._cache.add a` on the Python set, modelled on a duplicate-free
list. -/
def cache_add (c : List Nat) (a : Nat) : List Nat :=
  if c.contains a then c else c ++ [a]

/-- `MultipleSendsModule._execute`: return early when the CURRENT
instruction's address is cached; otherwise analyze, add each produced
issue's ADDRESS (the call offset) to the cache, and extend the findings
list. -/
def _execute (solver : Solver) (σ : ListStore) (m : ModuleState) (state : GlobalState) :
    ListStore × ModuleState :=
  if m.cache.contains state.instruction.address then
    (σ, m)
  else
    let r := _analyze_state solver σ state
    (r.1,
     { cache := r.2.2.foldl (fun c i => cache_add c i.address) m.cache
       issues := m.issues ++ r.2.2 })

/-- One invocation of the detector during a run: the hooked state, its
store, and the solver oracle for that invocation. -/
structure Invocation where
  solver : Solver
  σ : ListStore
  state : GlobalState

/-- A whole run of the (singleton) detection module: `_execute` is invoked
once per hooked state, threading the module's cache and findings list. -/
def run_detector (invs : List Invocation) (m : ModuleState) : ModuleState :=
  invs.foldl (fun m inv => (_execute inv.solver inv.σ m inv.state).2) m

/-- `IssueAnnotation`: a tentative finding — a list of independent
satisfiability conditions (the smt `Bool` terms are opaque to this model),
the draft `Issue` and an identifier for the detector that produced it. -/
structure IssueAnnotation where
  conditions : List Nat
  issue : Issue
  detector : String

/-- `IssueAnnotation.persist_to_world_state`. -/
def IssueAnnotation.persist_to_world_state (_a : IssueAnnotation ) : Bool := true

/-- `IssueAnnotation.persist_over_calls`. -/
def IssueAnnotation.persist_over_calls (_a : IssueAnnotation ) : Bool := true

/-- A plugin builder as the loader sees it: its declared `plugin_name`, its
mutable `enabled` flag, and an identity tag distinguishing distinct builder
objects (Python object identity). -/
structure PluginBuilder where
  plugin_name : String
  enabled : Bool
  builderId : Nat
deriving DecidableEq

/-- `self.laser_plugin_builders`: a dict from plugin name to builder,
modelled as an insertion-ordered association list. -/
abbrev Registry := List (String × PluginBuilder)

/-- Dict lookup `self.laser_plugin_builders[name]` /
`name in self.laser_plugin_builders`. -/
def find_builder (name : String) : Registry → Option PluginBuilder
  | [] => none
  | (n, b) :: rest => if n = name then some b else find_builder name rest

/-- `LaserPluginLoader.load`: registers the builder under its declared
name; when the name already exists it logs and returns without touching
the registry. -/
def load (reg : Registry) (plugin_builder : PluginBuilder) : Registry :=
  if (find_builder plugin_builder.plugin_name reg).isSome then reg
  else reg ++ [(plugin_builder.plugin_name, plugin_builder)]

/-- `LaserPluginLoader.is_enabled`. -/
def is_enabled (reg : Registry) (plugin_name : String) : Bool :=
  match find_builder plugin_name reg with
  | none => false
  | some b => b.enabled

/-- `self.laser_plugin_builders[name].enabled = True`: in-place mutation of
the (unique) entry with the given key. -/
def set_enabled (name : String) : Registry → Registry
  | [] => []
  | (n, b) :: rest =>
      if n = name then (n, { b with enabled := true }) :: rest
      else (n, b) :: set_enabled name rest

/-- The error value `enable` hands back for an unknown name. -/
inductive LoaderError where
  | valueError (msg : String)
deriving DecidableEq

/-- `LaserPluginLoader.enable`: when the name is not registered it RETURNS
(not raises) a `ValueError` and leaves the registry alone; otherwise it
sets the builder's `enabled` flag.  The pair holds the registry after the
call and the error value the caller receives (`none` on success, mirroring
Python's implicit `None` return). -/
def enable (reg : Registry) (plugin_name : String) : Registry × Option LoaderError :=
  match find_builder plugin_name reg with
  | none =>
      (reg, some (.valueError ("Plugin with name: " ++ plugin_name ++ " was not loaded")))
  | some _ => (set_enabled plugin_name reg, none)

/-- The `enabled` computation of `instrument_virtual_machine`:
`plugin_builder.enabled if not with_plugins else plugin_name in
with_plugins`.  Python truthiness makes `not with_plugins` true both for
`None` and for the EMPTY list, so an empty override list falls back to the
stored flags. -/
def effective_enabled (with_plugins : Option (List String)) (plugin_name : String)
    (plugin_builder : PluginBuilder) : Bool :=
  match with_plugins with
  | none => plugin_builder.enabled
  | some l => if l.isEmpty then plugin_builder.enabled else l.contains plugin_name

/-- `LaserPluginLoader.instrument_virtual_machine`: iterates the registry in
registration order and, for each effectively-enabled plugin, constructs the
plugin from its builder and initializes it against the symbolic vm.  The
returned list records exactly the (name, builder) pairs instantiated and
initialized, in order. -/
def instrument_virtual_machine (reg : Registry) (with_plugins : Option (List String)) :
    List (String × PluginBuilder) :=
  reg.filter fun p => effective_enabled with_plugins p.1 p.2

/-- A setup-time operation on the (process-wide singleton) loader: the only
two calls that mutate the registry. -/
inductive LoaderOp where
  | loadOp (b : PluginBuilder)
  | enableOp (n : String)

/-- Running a sequence of setup operations against a registry. -/
def run_ops : Registry → List LoaderOp → Registry
  | reg, [] => reg
  | reg, LoaderOp.loadOp b :: rest => run_ops (load reg b) rest
  | reg, LoaderOp.enableOp n :: rest => run_ops (enable reg n).1 rest

/-! Test fixtures shared by concrete evaluations. -/

/-- A fixed environment for concrete test states. -/
def testEnv : Environment := ⟨"TestContract", "fallback", [96, 96]⟩

/-- A fixed machine sub-state for concrete test states. -/
def testMState : MachineState := ⟨[], 3, 7⟩

/-- A concrete state at a STOP instruction carrying an annotation reference. -/
def stopState (addr r : Nat) : GlobalState :=
  ⟨⟨"STOP", addr⟩, testEnv, testMState, some ⟨r⟩⟩

/-- A concrete state at a RETURN instruction carrying an annotation reference. -/
def returnState (addr r : Nat) : GlobalState :=
  ⟨⟨"RETURN", addr⟩, testEnv, testMState, some ⟨r⟩⟩

/-- A concrete state at a CALL instruction carrying an annotation reference. -/
def callState (addr r : Nat) : GlobalState :=
  ⟨⟨"CALL", addr⟩, testEnv, testMState, some ⟨r⟩⟩

end Mythril

namespace Mythril

/-! Registry lemmas. -/

/-- Looking a name up in a concatenation falls through to the second part
when the first part does not contain it. -/
theorem find_builder_append_of_none (name : String) (l1 l2 : Registry)
    (h : find_builder name l1 = none) :
    find_builder name (l1 ++ l2) = find_builder name l2 := by
  induction l1 with
  | nil => rfl
  | cons p rest ih =>
    obtain ⟨n, b⟩ := p
    by_cases hn : n = name
    · simp [find_builder, hn] at h
    · simp only [find_builder, List.cons_append, if_neg hn] at h ⊢
      exact ih h

/-- `set_enabled` never creates a registration: an absent name stays
absent. -/
theorem find_builder_set_enabled_none (name n : String) (reg : Registry)
    (h : find_builder name reg = none) :
    find_builder name (set_enabled n reg) = none := by
  induction reg with
  | nil => rfl
  | cons p rest ih =>
    obtain ⟨k, b⟩ := p
    by_cases hk : k = name
    · simp [find_builder, hk] at h
    · simp only [find_builder, if_neg hk] at h
      by_cases hkn : k = n
      · simp only [set_enabled, if_pos hkn, find_builder, if_neg hk]
        exact h
      · simp only [set_enabled, if_neg hkn, find_builder, if_neg hk]
        exact ih h

/-- A name that no operation of a setup sequence loads is still absent from
the registry after running the sequence. -/
theorem find_builder_run_ops_none (name : String) : ∀ (ops : List LoaderOp)
    (reg : Registry), find_builder name reg = none →
    (∀ b, LoaderOp.loadOp b ∈ ops → b.plugin_name ≠ name) →
    find_builder name (run_ops reg ops) = none := by
  intro ops
  induction ops with
  | nil => intro reg h _; exact h
  | cons op rest ih =>
    intro reg h hops
    cases op with
    | loadOp b =>
      have hb : b.plugin_name ≠ name := hops b (List.mem_cons_self _ _)
      have h1 : find_builder name (load reg b) = none := by
        unfold load
        by_cases hs : (find_builder b.plugin_name reg).isSome
        · simpa [hs] using h
        · simp only [hs, Bool.false_eq_true, if_false]
          rw [find_builder_append_of_none name reg _ h]
          simp [find_builder, hb]
      exact ih (load reg b) h1 (fun b' hb' => hops b' (List.mem_cons_of_mem _ hb'))
    | enableOp n =>
      have h1 : find_builder name (enable reg n).1 = none := by
        unfold enable
        cases hfb : find_builder n reg with
        | none => simpa using h
        | some c => simpa using find_builder_set_enabled_none name n reg h
      exact ih _ h1 (fun b' hb' => hops b' (List.mem_cons_of_mem _ hb'))

/-! Store lemmas. -/

/-- Writing a valid reference and reading it back yields the written value. -/
theorem readList_writeList_self (σ : ListStore) (r : Nat) (v : List Nat)
    (h : r < σ.length) : readList (writeList σ r v) r = v := by
  induction σ generalizing r with
  | nil => exact absurd h (by simp)
  | cons w σ ih =>
    cases r with
    | zero => rfl
    | succ n => exact ih n (Nat.lt_of_succ_lt_succ h)

/-- Writing one reference leaves every other reference unchanged. -/
theorem readList_writeList_ne (σ : ListStore) (r q : Nat) (v : List Nat)
    (h : r ≠ q) : readList (writeList σ r v) q = readList σ q := by
  induction σ generalizing r q with
  | nil => rfl
  | cons w σ ih =>
    cases r with
    | zero =>
      cases q with
      | zero => exact absurd rfl h
      | succ m => rfl
    | succ n =>
      cases q with
      | zero => rfl
      | succ m => exact ih n m (fun hh => h (by rw [hh]))

/-- Allocating a new object at the end of the store does not change a valid
existing reference. -/
theorem readList_append_lt (σ : ListStore) (v : List Nat) (r : Nat)
    (h : r < σ.length) : readList (σ ++ [v]) r = readList σ r := by
  induction σ generalizing r with
  | nil => exact absurd h (by simp)
  | cons w σ ih =>
    cases r with
    | zero => rfl
    | succ n => exact ih n (Nat.lt_of_succ_lt_succ h)

/-- The freshly allocated object at the end of the store reads as the value
it was allocated with. -/
theorem readList_append_len (σ : ListStore) (v : List Nat) :
    readList (σ ++ [v]) σ.length = v := by
  induction σ with
  | nil => rfl
  | cons w σ ih => exact ih

/-! Lemmas about the offset-scanning loop. -/

/-- The loop returns at most one issue. -/
theorem scan_call_offsets_length_le_one (solver : Solver) (st : GlobalState)
    (os : List Nat) : ∀ i : Nat, (scan_call_offsets solver st i os).length ≤ 1 := by
  induction os with
  | nil => intro i; simp [scan_call_offsets]
  | cons o rest ih =>
    intro i
    cases h : solver i with
    | none => simpa [scan_call_offsets, h] using ih (i + 1)
    | some seq => simp [scan_call_offsets, h]

/-- When every solver call is unsatisfiable the loop skips every offset and
returns the empty list. -/
theorem scan_call_offsets_all_unsat (solver : Solver) (st : GlobalState)
    (os : List Nat) : ∀ i : Nat, (∀ k, k < os.length → solver (i + k) = none) →
    scan_call_offsets solver st i os = [] := by
  induction os with
  | nil => intro i _; rfl
  | cons o rest ih =>
    intro i h
    have h0 : solver i = none := by simpa using h 0 (by simp)
    have hrest : ∀ k, k < rest.length → solver (i + 1 + k) = none := by
      intro k hk
      have := h (k + 1) (by simpa using Nat.succ_lt_succ hk)
      rw [show i + 1 + k = i + (k + 1) by omega]
      exact this
    simp [scan_call_offsets, h0, ih (i + 1) hrest]

/-- The loop skips every unsatisfiable offset before the first satisfiable
one and stops there, returning exactly that offset's issue. -/
theorem scan_call_offsets_first_sat (solver : Solver) (st : GlobalState)
    (os : List Nat) : ∀ (i j : Nat) (seq : TxSeq) (hj : j < os.length),
    (∀ k, k < j → solver (i + k) = none) → solver (i + j) = some seq →
    scan_call_offsets solver st i os = [mkIssue st (os.get ⟨j, hj⟩) seq] := by
  induction os with
  | nil => intro i j seq hj _ _; exact absurd hj (by simp)
  | cons o rest ih =>
    intro i j seq hj hskip hsat
    cases j with
    | zero =>
      have : solver i = some seq := by simpa using hsat
      simp [scan_call_offsets, this]
    | succ m =>
      have h0 : solver i = none := by simpa using hskip 0 (Nat.succ_pos m)
      have hskip' : ∀ k, k < m → solver (i + 1 + k) = none := by
        intro k hk
        have := hskip (k + 1) (Nat.succ_lt_succ hk)
        rw [show i + 1 + k = i + (k + 1) by omega]
        exact this
      have hsat' : solver (i + 1 + m) = some seq := by
        rw [show i + 1 + m = i + (m + 1) by omega]
        exact hsat
      simp [scan_call_offsets, h0,
        ih (i + 1) m seq (Nat.lt_of_succ_lt_succ hj) hskip' hsat']

end Mythril

namespace Mythril

/-- Claim C9: every `IssueAnnotation`, whatever conditions, issue and
detector it was constructed with, persists to the world state and across
call boundaries. -/
theorem issue_annotation_always_persists (a : IssueAnnotation ) :
    a.persist_to_world_state = true ∧ a.persist_over_calls = true :=
  ⟨rfl, rfl⟩

/-- Claim C8: `__copy__` yields an annotation whose `call_offsets` list is
equal to the original's at the moment of the copy, and appending an offset
through either annotation leaves the list seen through the other one
unchanged: the duplicate is an independent list object, never an alias. -/
theorem copy_yields_independent_call_offsets (σ : ListStore)
    (a : MultipleSendsAnnotation ) (h : a.call_offsets < σ.length) :
    readList ( MultipleSendsAnnotation.copy σ a).1
        ( MultipleSendsAnnotation.copy σ a).2.call_offsets
      = readList σ a.call_offsets ∧
    (∀ x, readList
        (append_call_offset ( MultipleSendsAnnotation.copy σ a).1
          ( MultipleSendsAnnotation.copy σ a).2 x) a.call_offsets
      = readList ( MultipleSendsAnnotation.copy σ a).1 a.call_offsets) ∧
    (∀ x, readList
        (append_call_offset ( MultipleSendsAnnotation.copy σ a).1 a x)
        ( MultipleSendsAnnotation.copy σ a).2.call_offsets
      = readList ( MultipleSendsAnnotation.copy σ a).1
          ( MultipleSendsAnnotation.copy σ a).2.call_offsets) := by
  have hne : σ.length ≠ a.call_offsets := (Nat.ne_of_lt h).symm
  refine ⟨readList_append_len σ _, fun x => ?_, fun x => ?_⟩
  · exact readList_writeList_ne _ _ _ _ hne
  · exact readList_writeList_ne _ _ _ _ (Nat.ne_of_lt h)

/-- Witness for C8 at a concrete store and annotation. -/
theorem copy_yields_independent_call_offsets_witness :
    readList ( MultipleSendsAnnotation.copy [[10]] ⟨0⟩).1
        ( MultipleSendsAnnotation.copy [[10]] ⟨0⟩).2.call_offsets = [10] ∧
    readList (append_call_offset ( MultipleSendsAnnotation.copy [[10]] ⟨0⟩).1
        ( MultipleSendsAnnotation.copy [[10]] ⟨0⟩).2 99) 0 = [10] := by
  have h := copy_yields_independent_call_offsets [[10]] ⟨0⟩ (by decide)
  exact ⟨h.1, h.2.1 99⟩

/-- Claim C7: at a RETURN or STOP instruction, a state whose annotation
records exactly one call offset produces no issue. -/
theorem lone_call_reports_nothing (solver : Solver) (σ : ListStore)
    (state : GlobalState) (r x : Nat)
    (hterm : state.instruction.opcode = "RETURN" ∨ state.instruction.opcode = "STOP")
    (hann : state.annotations = some ⟨r⟩)
    (hread : readList σ r = [x]) :
    (_analyze_state solver σ state).2.2 = [] := by
  have hc : state.instruction.opcode ∉ CALL_OPCODES := by
    rcases hterm with h | h <;> rw [h] <;> decide
  simp [_analyze_state, get_or_create_annotation, hann, hc, hread, scan_call_offsets]

/-- Witness for C7 at a concrete state with one recorded call offset. -/
theorem lone_call_reports_nothing_witness :
    (_analyze_state (fun _ => some [1]) [[10]] (stopState 30 0)).2.2 = [] :=
  lone_call_reports_nothing (fun _ => some [1]) [[10]] (stopState 30 0) 0 10
    (Or.inr rfl) rfl rfl

/-- Claim C4: with recorded call offsets 10 and 20, at a STOP at address 30
whose constraints the solver finds satisfiable with model `seq`,
`_analyze_state` returns exactly one issue, at address 20, of severity Low,
whose transaction-sequence witness is the solver's (non-empty) model. -/
theorem two_calls_then_stop_reports_single_low_issue (solver : Solver)
    (σ : ListStore) (state : GlobalState) (r : Nat) (seq : TxSeq)
    (hann : state.annotations = some ⟨r⟩)
    (hread : readList σ r = [10, 20])
    (hinstr : state.instruction = ⟨"STOP", 30⟩)
    (hsolve : solver 0 = some seq)
    (hseq : seq ≠ []) :
    (_analyze_state solver σ state).2.2 = [mkIssue state 20 seq] ∧
    (mkIssue state 20 seq).address = 20 ∧
    (mkIssue state 20 seq).severity = "Low" ∧
    (mkIssue state 20 seq).transaction_sequence = seq ∧
    (mkIssue state 20 seq).transaction_sequence ≠ [] := by
  have hc : state.instruction.opcode ∉ CALL_OPCODES := by rw [hinstr]; decide
  refine ⟨?_, rfl, rfl, rfl, hseq⟩
  simp [_analyze_state, get_or_create_annotation, hann, hc, hread,
    scan_call_offsets, hsolve]

/-- Witness for C4 at a concrete state, store and solver model. -/
theorem two_calls_then_stop_reports_single_low_issue_witness :
    (_analyze_state (fun _ => some [5]) [[10, 20]] (stopState 30 0)).2.2
        = [mkIssue (stopState 30 0) 20 [5]] ∧
    (mkIssue (stopState 30 0) 20 [5]).address = 20 ∧
    (mkIssue (stopState 30 0) 20 [5]).severity = "Low" ∧
    (mkIssue (stopState 30 0) 20 [5]).transaction_sequence = [5] ∧
    (mkIssue (stopState 30 0) 20 [5]).transaction_sequence ≠ [] :=
  two_calls_then_stop_reports_single_low_issue (fun _ => some [5]) [[10, 20]]
    (stopState 30 0) 0 [5] rfl rfl rfl rfl (by decide)

/-- Claim C5: at a RETURN or STOP, the detector scans the offsets after the
first in order; it produces at most one issue; when every solver call is
unsatisfiable it skips every offset and returns no issue (never aborting);
and it stops at the first offset whose solver call succeeds, returning the
issue built at exactly that offset. -/
theorem terminator_skips_unsat_stops_at_first_sat (solver : Solver)
    (σ : ListStore) (state : GlobalState) (r : Nat)
    (hterm : state.instruction.opcode = "RETURN" ∨ state.instruction.opcode = "STOP")
    (hann : state.annotations = some ⟨r⟩) :
    ((_analyze_state solver σ state).2.2).length ≤ 1 ∧
    ((∀ k, k < ((readList σ r).drop 1).length → solver k = none) →
      (_analyze_state solver σ state).2.2 = []) ∧
    (∀ (j : Nat) (seq : TxSeq) (hj : j < ((readList σ r).drop 1).length),
      (∀ k, k < j → solver k = none) → solver j = some seq →
      (_analyze_state solver σ state).2.2
        = [mkIssue state (((readList σ r).drop 1).get ⟨j, hj⟩) seq]) := by
  have hc : state.instruction.opcode ∉ CALL_OPCODES := by
    rcases hterm with h | h <;> rw [h] <;> decide
  have hred : (_analyze_state solver σ state).2.2
      = scan_call_offsets solver state 0 ((readList σ r).drop 1) := by
    simp [_analyze_state, get_or_create_annotation, hann, hc]
  refine ⟨?_, fun hall => ?_, fun j seq hj hskip hsat => ?_⟩
  · rw [hred]; exact scan_call_offsets_length_le_one solver state _ 0
  · rw [hred]
    exact scan_call_offsets_all_unsat solver state _ 0
      (fun k hk => by simpa using hall k hk)
  · rw [hred]
    exact scan_call_offsets_first_sat solver state _ 0 j seq hj
      (fun k hk => by simpa using hskip k hk) (by simpa using hsat)

/-- Witness for C5: with offsets 10, 20, 30 and a solver that is
unsatisfiable on its first call and satisfiable on its second, the scan
skips offset 20 and reports at offset 30. -/
theorem terminator_skips_unsat_stops_at_first_sat_witness :
    (_analyze_state (fun i => if i = 0 then none else some [7]) [[10, 20, 30]]
        (stopState 40 0)).2.2 = [mkIssue (stopState 40 0) 30 [7]] := by
  have h := terminator_skips_unsat_stops_at_first_sat
    (fun i => if i = 0 then none else some [7]) [[10, 20, 30]] (stopState 40 0) 0
    (Or.inr rfl) rfl
  exact h.2.2 1 [7] (by decide)
    (fun k hk => by
      have hk0 : k = 0 := Nat.lt_one_iff.mp hk
      subst hk0; rfl) rfl

/-- Claim C10: `_analyze_state` appends the current instruction's address to
the annotation's `call_offsets` list exactly once when the opcode is in the
call family (touching no other list object and reporting nothing), and at
any other hooked opcode (RETURN or STOP) it leaves the store and the state
completely unchanged. -/
theorem analyze_state_frame_effect (solver : Solver) (σ : ListStore)
    (state : GlobalState) (r : Nat)
    (hann : state.annotations = some ⟨r⟩)
    (hr : r < σ.length) :
    (state.instruction.opcode ∈ CALL_OPCODES →
      readList (_analyze_state solver σ state).1 r
          = readList σ r ++ [state.instruction.address] ∧
      (∀ q, q ≠ r → readList (_analyze_state solver σ state).1 q = readList σ q) ∧
      (_analyze_state solver σ state).2.2 = [] ∧
      (_analyze_state solver σ state).2.1 = state) ∧
    (state.instruction.opcode ∉ CALL_OPCODES →
      (_analyze_state solver σ state).1 = σ ∧
      (_analyze_state solver σ state).2.1 = state) := by
  constructor
  · intro hc
    have hred : _analyze_state solver σ state
        = (writeList σ r (readList σ r ++ [state.instruction.address]), state, []) := by
      simp [_analyze_state, get_or_create_annotation, hann, hc, append_call_offset]
    rw [hred]
    exact ⟨readList_writeList_self σ r _ hr,
      fun q hq => readList_writeList_ne σ r q _ (Ne.symm hq), rfl, rfl⟩
  · intro hc
    have hred : _analyze_state solver σ state
        = (σ, state,
            scan_call_offsets solver state 0 ((readList σ r).drop 1)) := by
      simp [_analyze_state, get_or_create_annotation, hann, hc]
    rw [hred]
    exact ⟨rfl, rfl⟩

/-- Witness for C10: a CALL at address 9 appends 9 to the annotation's list
(reference 0), leaves the unrelated list object (reference 1) unchanged, and
reports nothing. -/
theorem analyze_state_frame_effect_witness :
    readList (_analyze_state (fun _ => none) [[7], [4]] (callState 9 0)).1 0
        = [7, 9] ∧
    readList (_analyze_state (fun _ => none) [[7], [4]] (callState 9 0)).1 1
        = [4] ∧
    (_analyze_state (fun _ => none) [[7], [4]] (callState 9 0)).2.2 = [] := by
  have h := (analyze_state_frame_effect (fun _ => none) [[7], [4]]
    (callState 9 0) 0 rfl (by decide)).1 (by decide)
  exact ⟨h.1, (h.2.1 1 (by decide)), h.2.2.1⟩

/-- Claim C1 is violated by the code: `_execute` checks the cache against
the CURRENT instruction's address but populates it with the produced
issues' addresses, which for this detector are the earlier call offsets —
so a run hitting two different terminators (STOP at 30, RETURN at 40) over
the same recorded call offsets appends TWO issues with the same address
20. -/
theorem multiple_sends_duplicate_address_run :
    ((run_detector
        [⟨fun _ => some [1], [[10, 20]], stopState 30 0⟩,
         ⟨fun _ => some [1], [[10, 20]], returnState 40 0⟩]
        ⟨[], []⟩).issues.map Issue.address) = [20, 20] := rfl

/-- Claim C2: `enable` on a name never passed to `load` over the whole
setup history hands the caller a ValueError and leaves the registry exactly
as it was — no implicit registration, no flag set. -/
theorem enable_never_loaded_fails_notfound (ops : List LoaderOp) (name : String)
    (h : ∀ b, LoaderOp.loadOp b ∈ ops → b.plugin_name ≠ name) :
    (enable (run_ops [] ops) name).1 = run_ops [] ops ∧
    (enable (run_ops [] ops) name).2
      = some (.valueError ("Plugin with name: " ++ name ++ " was not loaded")) := by
  have hnone : find_builder name (run_ops [] ops) = none :=
    find_builder_run_ops_none name ops [] rfl h
  constructor <;> simp [enable, hnone]

/-- Witness for C2: after loading only plugin "a", enabling "b" fails and
changes nothing. -/
theorem enable_never_loaded_fails_notfound_witness :
    (enable (run_ops [] [LoaderOp.loadOp ⟨"a", false, 0⟩]) "b").1
        = run_ops [] [LoaderOp.loadOp ⟨"a", false, 0⟩] ∧
    (enable (run_ops [] [LoaderOp.loadOp ⟨"a", false, 0⟩]) "b").2
        = some (.valueError ("Plugin with name: " ++ "b" ++ " was not loaded")) := by
  refine enable_never_loaded_fails_notfound [LoaderOp.loadOp ⟨"a", false, 0⟩] "b" ?_
  intro b hb
  have h1 := List.mem_singleton.mp hb
  have h2 : b = ⟨"a", false, 0⟩ := by injection h1
  subst h2
  decide

/-- Claim C6: loading a second builder with an already-loaded name is a
no-op — the registry still maps the name to the first builder and its size
is unchanged. -/
theorem load_duplicate_keeps_first_registration (reg : Registry)
    (b b' : PluginBuilder)
    (hfresh : find_builder b.plugin_name reg = none)
    (hname : b'.plugin_name = b.plugin_name) :
    load (load reg b) b' = load reg b ∧
    find_builder b.plugin_name (load (load reg b) b') = some b ∧
    (load (load reg b) b').length = (load reg b).length := by
  have h1 : load reg b = reg ++ [(b.plugin_name, b)] := by simp [load, hfresh]
  have h2 : find_builder b.plugin_name (load reg b) = some b := by
    rw [h1, find_builder_append_of_none _ _ _ hfresh]
    simp [find_builder]
  have h3 : load (load reg b) b' = load reg b := by
    generalize load reg b = R at h2 ⊢
    simp [load, hname, h2]
  refine ⟨h3, ?_, by rw [h3]⟩
  rw [h3]; exact h2

/-- Witness for C6 at two concrete builders sharing the name "a". -/
theorem load_duplicate_keeps_first_registration_witness :
    load (load [] ⟨"a", false, 0⟩) ⟨"a", true, 1⟩ = load [] ⟨"a", false, 0⟩ ∧
    find_builder "a" (load (load [] ⟨"a", false, 0⟩) ⟨"a", true, 1⟩)
        = some ⟨"a", false, 0⟩ ∧
    (load (load [] ⟨"a", false, 0⟩) ⟨"a", true, 1⟩).length
        = (load [] ⟨"a", false, 0⟩).length :=
  load_duplicate_keeps_first_registration [] ⟨"a", false, 0⟩ ⟨"a", true, 1⟩ rfl rfl

/-- Claim C3 is violated by the code at the empty override list: Python's
`not with_plugins` is true for `[]`, so an enabled plugin is instantiated
even though its name is not a member of the (empty) override list. -/
theorem instrument_empty_override_uses_stored_flags :
    instrument_virtual_machine [("a", ⟨"a", true, 0⟩)] (some [])
        = [("a", ⟨"a", true, 0⟩)] ∧
    ("a" ∈ ([] : List String) → False) :=
  ⟨rfl, by decide⟩

/-- Claim C3 as amended: a NON-EMPTY override list decides instrumentation
by membership alone, regardless of the stored flag; with no override list
— or with the empty list, which Python truthiness treats the same way —
the stored enabled flag decides. -/
theorem instrument_override_membership (reg : Registry) (name : String)
    (b : PluginBuilder)
    (hmem : (name, b) ∈ reg) :
    (∀ l : List String, l ≠ [] →
      ((name, b) ∈ instrument_virtual_machine reg (some l)
        ↔ l.contains name = true)) ∧
    ((name, b) ∈ instrument_virtual_machine reg none ↔ b.enabled = true) ∧
    ((name, b) ∈ instrument_virtual_machine reg (some []) ↔ b.enabled = true) := by
  refine ⟨fun l hl => ?_, ?_, ?_⟩
  · cases l with
    | nil => exact absurd rfl hl
    | cons x xs =>
      simp [instrument_virtual_machine, List.mem_filter, hmem, effective_enabled]
  · simp [instrument_virtual_machine, List.mem_filter, hmem, effective_enabled]
  · simp [instrument_virtual_machine, List.mem_filter, hmem, effective_enabled]

/-- Witness for C3 (amended): a disabled plugin listed in a non-empty
override list is instrumented, and the same plugin is not instrumented when
no override list is supplied. -/
theorem instrument_override_membership_witness :
    (("a", (⟨"a", false, 0⟩ : PluginBuilder)) ∈
        instrument_virtual_machine
          [("a", ⟨"a", false, 0⟩), ("b", ⟨"b", true, 1⟩)] (some ["a"])) ∧
    ¬ (("a", (⟨"a", false, 0⟩ : PluginBuilder)) ∈
        instrument_virtual_machine
          [("a", ⟨"a", false, 0⟩), ("b", ⟨"b", true, 1⟩)] none) := by
  have h := instrument_override_membership
    [("a", ⟨"a", false, 0⟩), ("b", ⟨"b", true, 1⟩)] "a" ⟨"a", false, 0⟩ (by decide)
  refine ⟨(h.1 ["a"] (by decide)).mpr (by decide), fun hc => ?_⟩
  have := h.2.1.mp hc
  simp at this

end Mythril
